import Mathlib

/-!
Verification of the muon skimming pipeline in
PWGEM/Dilepton/TableProducer/skimmerPrimaryMuon.cxx.

The source is shallowly embedded over exact rationals.  Floating point
values of the program are modelled by rationals; the external math
library calls (std::sqrt, std::sin, std::atan, std::exp and the angle
normalisation o2::math_utils::bringTo02Pi) are abstracted into a
MathModel record of unconstrained functions, and the external track
propagation engine (propagateMuon of Common/Core/fwdtrackUtilities.h,
outside this repository) is a parameter of the pipeline functions.
-/

namespace SkimmerPrimaryMuon

/-- Values of o2::aod::fwdtrack::ForwardTrackTypeEnum used by the task:
GlobalMuonTrack = 0. -/
def GlobalMuonTrack : Nat := 0

/-- Values of o2::aod::fwdtrack::ForwardTrackTypeEnum used by the task:
MuonStandaloneTrack = 3. -/
def MuonStandaloneTrack : Nat := 3

/-- The Configurable thresholds of struct skimmerPrimaryMuon. -/
structure Config where
  minPt : ℚ
  maxPt : ℚ
  minEtaSA : ℚ
  maxEtaSA : ℚ
  minEtaGL : ℚ
  maxEtaGL : ℚ
  minRabsGL : ℚ
  minRabs : ℚ
  midRabs : ℚ
  maxRabs : ℚ
  maxDCAxy : ℚ
  maxPDCAforLargeR : ℚ
  maxPDCAforSmallR : ℚ
  maxMatchingChi2MCHMFT : ℚ
  maxChi2SA : ℚ
  maxChi2GL : ℚ
  refitGlobalMuon : Bool
deriving DecidableEq

/-- skimmerPrimaryMuon::isSelected, transcribed cut for cut from the
source (lines 167-204). -/
def isSelected (cfg : Config) (pt eta rAtAbsorberEnd pDCA chi2_per_ndf : ℚ)
    (trackType : Nat) (dcaXY : ℚ) : Bool :=
  if pt < cfg.minPt ∨ cfg.maxPt < pt then
    false
  else if rAtAbsorberEnd < cfg.minRabs ∨ cfg.maxRabs < rAtAbsorberEnd then
    false
  else if (if rAtAbsorberEnd < cfg.midRabs then pDCA > cfg.maxPDCAforSmallR
           else pDCA > cfg.maxPDCAforLargeR) then
    false
  else if trackType = GlobalMuonTrack then
    if eta < cfg.minEtaGL ∨ cfg.maxEtaGL < eta then
      false
    else if cfg.maxDCAxy < dcaXY then
      false
    else if cfg.maxChi2GL < chi2_per_ndf then
      false
    else if rAtAbsorberEnd < cfg.minRabsGL ∨ cfg.maxRabs < rAtAbsorberEnd then
      false
    else
      true
  else if trackType = MuonStandaloneTrack then
    if eta < cfg.minEtaSA ∨ cfg.maxEtaSA < eta then
      false
    else if cfg.maxChi2SA < chi2_per_ndf then
      false
    else
      true
  else
    false

end SkimmerPrimaryMuon

namespace SkimmerPrimaryMuon

/-- External math routines used by fillFwdTrackTable: std::sqrt,
std::sin, std::atan, std::exp and o2::math_utils::bringTo02Pi.  They are
kept abstract: every theorem below holds for an arbitrary MathModel. -/
structure MathModel where
  sqrt : ℚ → ℚ
  sin : ℚ → ℚ
  atan : ℚ → ℚ
  exp : ℚ → ℚ
  bringTo02Pi : ℚ → ℚ

/-- The propagation targets of o2::aod::fwdtrackutils::propagationPoint
used by the task. -/
inductive PropPoint where
  | kToVertex : PropPoint
  | kToDCA : PropPoint
  | kToRabs : PropPoint
deriving DecidableEq

/-- The 15 independent entries of the symmetric 5x5 covariance matrix of
an o2::dataformats::GlobalFwdTrack, indexed as in TrackFwd.h (X, Y, PHI,
TANL, INVQPT).  Entry cIJ is the (I, J) matrix element. -/
structure Cov5 where
  c00 : ℚ
  c01 : ℚ
  c11 : ℚ
  c20 : ℚ
  c21 : ℚ
  c22 : ℚ
  c30 : ℚ
  c31 : ℚ
  c32 : ℚ
  c33 : ℚ
  c40 : ℚ
  c41 : ℚ
  c42 : ℚ
  c43 : ℚ
  c44 : ℚ
deriving DecidableEq

/-- The part of an o2::dataformats::GlobalFwdTrack read by the task:
getPt, getEta, getPhi, getP, getX, getY, getSigma2X (= cov(0,0)),
getSigma2Y (= cov(1,1)), getSigmaXY (= cov(0,1)) and getCovariances. -/
structure PropState where
  pt : ℚ
  eta : ℚ
  phi : ℚ
  p : ℚ
  x : ℚ
  y : ℚ
  cov : Cov5
deriving DecidableEq

/-- The columns of a joined FwdTracks/FwdTracksCov row read by the task.
The matched MCH-MID track (matchMCHTrack) is itself a row of the same
table. -/
structure FwdTrack where
  globalIndex : ℤ
  collisionId : ℤ
  trackType : Nat
  p : ℚ
  sign : ℤ
  chi2 : ℚ
  chi2MatchMCHMID : ℚ
  chi2MatchMCHMFT : ℚ
  rAtAbsorberEnd : ℚ
  nClusters : ℤ
  matchMFTTrackId : ℤ
  matchMCHTrackId : ℤ
  mchBitMap : ℕ
  midBitMap : ℕ
  midBoards : ℕ
deriving DecidableEq

/-- The columns of an MFTTracks row read by the task. -/
structure MFTTrack where
  globalIndex : ℤ
  nClusters : ℤ
  mftClusterSizesAndTrackFlags : ℕ
  chi2 : ℚ
  eta : ℚ
  phi : ℚ
deriving DecidableEq

/-- The columns of a collision row read by the task. -/
structure Collision where
  globalIndex : ℤ
  posX : ℚ
  posY : ℚ
  posZ : ℚ
deriving DecidableEq

/-- One row of the EMPrimaryMuons output table, in the argument order of
the emprimarymuons(...) call (lines 328-332 of the source). -/
structure Candidate where
  collisionId : ℤ
  fwdtrackId : ℤ
  mfttrackId : ℤ
  mchtrackId : ℤ
  trackType : Nat
  pt : ℚ
  eta : ℚ
  phi : ℚ
  sign : ℤ
  dcaX : ℚ
  dcaY : ℚ
  cXXatDCA : ℚ
  cYYatDCA : ℚ
  cXYatDCA : ℚ
  ptMatchedMCHMID : ℚ
  etaMatchedMCHMID : ℚ
  phiMatchedMCHMID : ℚ
  nClusters : ℤ
  pDCA : ℚ
  rAtAbsorberEnd : ℚ
  chi2 : ℚ
  chi2MatchMCHMID : ℚ
  chi2MatchMCHMFT : ℚ
  mchBitMap : ℕ
  midBitMap : ℕ
  midBoards : ℕ
  mftClusterSizesAndTrackFlags : ℕ
  chi2mft : ℚ
  isAssociatedToMPC : Bool
  isAmbiguous : Bool
deriving DecidableEq

/-- A record of one call into the external propagation engine
(propagateMuon): the track state handed over and the target surface. -/
abbrev PropCall := FwdTrack × PropPoint

/-- The abstract propagation engine: deterministic function from a track
and a collision to the propagated state at a target surface.  Modelled
from the spec: propagateMuon of Common/Core/fwdtrackUtilities.h is
outside this repository; the spec treats it as a black-box pure function
over field state, track and target. -/
abbrev Propagator := FwdTrack → Collision → PropPoint → PropState

/-- Outcome of one fillFwdTrackTable call: the rows appended to the two
output tables (none, or exactly one candidate together with its
covariance record) and the ordered list of propagation calls made. -/
structure FillResult where
  emitted : Option (Candidate × Cov5)
  propCalls : List PropCall
deriving DecidableEq

/-- The dcaXYinSigma computation of fillFwdTrackTable (source lines
237-243): if the determinant of the DCA-plane covariance is negative the
sentinel 999 is substituted, otherwise the covariance-normalised
significance is computed, dividing by the determinant. -/
def dcaXYinSigmaOf (M : MathModel) (dcaX dcaY cXXatDCA cYYatDCA cXYatDCA : ℚ) : ℚ :=
  if cXXatDCA * cYYatDCA - cXYatDCA * cXYatDCA < 0 then
    999
  else
    M.sqrt |(dcaX * dcaX * cYYatDCA + dcaY * dcaY * cXXatDCA - 2 * dcaX * dcaY * cXYatDCA) /
        (cXXatDCA * cYYatDCA - cXYatDCA * cXYatDCA) / 2|

/-- The sigma_dcaXY computation of fillFwdTrackTable (source line 244):
dcaXY divided by dcaXYinSigma. -/
def sigma_dcaXY (M : MathModel) (dcaX dcaY cXXatDCA cYYatDCA cXYatDCA : ℚ) : ℚ :=
  M.sqrt (dcaX * dcaX + dcaY * dcaY) /
    dcaXYinSigmaOf M dcaX dcaY cXXatDCA cYYatDCA cXYatDCA

/-- The dcaX local of fillFwdTrackTable: x of the DCA-plane propagation
of a track minus the collision vertex x. -/
def dcaXat (prop : Propagator) (t : FwdTrack) (collision : Collision) : ℚ :=
  (prop t collision PropPoint.kToDCA).x - collision.posX

/-- The dcaY local of fillFwdTrackTable: y of the DCA-plane propagation
of a track minus the collision vertex y. -/
def dcaYat (prop : Propagator) (t : FwdTrack) (collision : Collision) : ℚ :=
  (prop t collision PropPoint.kToDCA).y - collision.posY

/-- The dcaXY local of fillFwdTrackTable: sqrt(dcaX^2 + dcaY^2) of the
DCA-plane propagation of a track relative to the collision vertex. -/
def dcaXYat (M : MathModel) (prop : Propagator) (t : FwdTrack)
    (collision : Collision) : ℚ :=
  M.sqrt (dcaXat prop t collision * dcaXat prop t collision +
    dcaYat prop t collision * dcaYat prop t collision)

/-- The ndf_mchmft local of fillFwdTrackTable for a GlobalMuon:
2 * (MCH cluster count + MFT cluster count) - 5. -/
def ndfOf (mchtrack : FwdTrack) (mfttrack : MFTTrack) : ℤ :=
  2 * (mchtrack.nClusters + mfttrack.nClusters) - 5

/-- The recomputed absorber-end radius of a MuonStandaloneTrack:
sqrt(x^2 + y^2) of the propagation to the absorber end. -/
def rAtAbsorberEndSA (M : MathModel) (prop : Propagator) (t : FwdTrack)
    (collision : Collision) : ℚ :=
  M.sqrt ((prop t collision PropPoint.kToRabs).x * (prop t collision PropPoint.kToRabs).x +
    (prop t collision PropPoint.kToRabs).y * (prop t collision PropPoint.kToRabs).y)

/-- The two propagation calls issued for every track that passes the
pre-propagation guards: the track itself to the vertex and to the
DCA plane (source lines 221 and 227). -/
def baseCalls (t : FwdTrack) : List PropCall :=
  [(t, PropPoint.kToVertex), (t, PropPoint.kToDCA)]

/-- The shared tail of fillFwdTrackTable (source lines 316-340): the
final isSelected gate and, on acceptance, the emission of exactly one
EMPrimaryMuons row and one EMPrimaryMuonsCov row, the latter copied from
the covariance of the vertex propagation of the track itself. -/
def finishFill (cfg : Config) (collision : Collision) (fwdtrack : FwdTrack)
    (isAmbiguous : Bool) (propmuonAtPV : PropState)
    (pt eta phi ptMatchedMCHMID etaMatchedMCHMID phiMatchedMCHMID : ℚ)
    (mftClusterSizesAndTrackFlags : ℕ) (chi2mft : ℚ) (ndf_mchmft : ℤ)
    (pDCA rAtAbsorberEnd dcaX dcaY cXXatDCA cYYatDCA cXYatDCA dcaXY : ℚ)
    (calls : List PropCall) : FillResult :=
  if ¬ (isSelected cfg pt eta rAtAbsorberEnd pDCA (fwdtrack.chi2 / (ndf_mchmft : ℚ))
        fwdtrack.trackType dcaXY = true) then
    { emitted := none, propCalls := calls }
  else
    { emitted := some
        ({ collisionId := collision.globalIndex
           fwdtrackId := fwdtrack.globalIndex
           mfttrackId := fwdtrack.matchMFTTrackId
           mchtrackId := fwdtrack.matchMCHTrackId
           trackType := fwdtrack.trackType
           pt := pt
           eta := eta
           phi := phi
           sign := fwdtrack.sign
           dcaX := dcaX
           dcaY := dcaY
           cXXatDCA := cXXatDCA
           cYYatDCA := cYYatDCA
           cXYatDCA := cXYatDCA
           ptMatchedMCHMID := ptMatchedMCHMID
           etaMatchedMCHMID := etaMatchedMCHMID
           phiMatchedMCHMID := phiMatchedMCHMID
           nClusters := fwdtrack.nClusters
           pDCA := pDCA
           rAtAbsorberEnd := rAtAbsorberEnd
           chi2 := fwdtrack.chi2
           chi2MatchMCHMID := fwdtrack.chi2MatchMCHMID
           chi2MatchMCHMFT := fwdtrack.chi2MatchMCHMFT
           mchBitMap := fwdtrack.mchBitMap
           midBitMap := fwdtrack.midBitMap
           midBoards := fwdtrack.midBoards
           mftClusterSizesAndTrackFlags := mftClusterSizesAndTrackFlags
           chi2mft := chi2mft
           isAssociatedToMPC := decide (fwdtrack.collisionId = collision.globalIndex)
           isAmbiguous := isAmbiguous }, propmuonAtPV.cov)
      propCalls := calls }

/-- skimmerPrimaryMuon::fillFwdTrackTable (source lines 206-400),
transcribed statement for statement.  The histogram filling is outside
the model; the matched MCH-MID row and the matched MFT row, which the
source fetches from their tables, are passed in resolved. -/
def fillFwdTrackTable (cfg : Config) (M : MathModel) (prop : Propagator)
    (collision : Collision) (fwdtrack mchtrack : FwdTrack) (mfttrack : MFTTrack)
    (isAmbiguous : Bool) : FillResult :=
  if fwdtrack.trackType = GlobalMuonTrack ∧
      fwdtrack.chi2MatchMCHMFT > cfg.maxMatchingChi2MCHMFT then
    { emitted := none, propCalls := [] }
  else if fwdtrack.chi2MatchMCHMID < 0 then
    { emitted := none, propCalls := [] }
  else if fwdtrack.chi2 < 0 then
    { emitted := none, propCalls := [] }
  else if fwdtrack.trackType = GlobalMuonTrack then
    if fwdtrack.rAtAbsorberEnd < cfg.minRabsGL ∨
        cfg.maxRabs < fwdtrack.rAtAbsorberEnd then
      { emitted := none, propCalls := baseCalls fwdtrack }
    else if cfg.maxDCAxy < dcaXYat M prop fwdtrack collision then
      { emitted := none, propCalls := baseCalls fwdtrack }
    else if cfg.maxChi2GL < fwdtrack.chi2 / ((ndfOf mchtrack mfttrack : ℤ) : ℚ) then
      { emitted := none, propCalls := baseCalls fwdtrack }
    else
      finishFill cfg collision fwdtrack isAmbiguous
        (prop fwdtrack collision PropPoint.kToVertex)
        (if cfg.refitGlobalMuon then
          (prop mchtrack collision PropPoint.kToVertex).p *
            M.sin (2 * M.atan (M.exp (-mfttrack.eta)))
        else (prop fwdtrack collision PropPoint.kToVertex).pt)
        (if cfg.refitGlobalMuon then mfttrack.eta
        else (prop fwdtrack collision PropPoint.kToVertex).eta)
        (if cfg.refitGlobalMuon then M.bringTo02Pi mfttrack.phi
        else M.bringTo02Pi (prop fwdtrack collision PropPoint.kToVertex).phi)
        (prop mchtrack collision PropPoint.kToVertex).pt
        (prop mchtrack collision PropPoint.kToVertex).eta
        (M.bringTo02Pi (prop mchtrack collision PropPoint.kToVertex).phi)
        mfttrack.mftClusterSizesAndTrackFlags mfttrack.chi2 (ndfOf mchtrack mfttrack)
        (mchtrack.p * dcaXYat M prop mchtrack collision)
        fwdtrack.rAtAbsorberEnd
        (dcaXat prop fwdtrack collision) (dcaYat prop fwdtrack collision)
        (prop fwdtrack collision PropPoint.kToDCA).cov.c00
        (prop fwdtrack collision PropPoint.kToDCA).cov.c11
        (prop fwdtrack collision PropPoint.kToDCA).cov.c01
        (dcaXYat M prop fwdtrack collision)
        (baseCalls fwdtrack ++
          [(mchtrack, PropPoint.kToVertex), (mchtrack, PropPoint.kToDCA)])
  else if fwdtrack.trackType = MuonStandaloneTrack then
    finishFill cfg collision fwdtrack isAmbiguous
      (prop fwdtrack collision PropPoint.kToVertex)
      (prop fwdtrack collision PropPoint.kToVertex).pt
      (prop fwdtrack collision PropPoint.kToVertex).eta
      (M.bringTo02Pi (prop fwdtrack collision PropPoint.kToVertex).phi)
      (prop fwdtrack collision PropPoint.kToVertex).pt
      (prop fwdtrack collision PropPoint.kToVertex).eta
      (M.bringTo02Pi (prop fwdtrack collision PropPoint.kToVertex).phi)
      0 0 1
      (fwdtrack.p * dcaXYat M prop fwdtrack collision)
      (rAtAbsorberEndSA M prop fwdtrack collision)
      (dcaXat prop fwdtrack collision) (dcaYat prop fwdtrack collision)
      (prop fwdtrack collision PropPoint.kToDCA).cov.c00
      (prop fwdtrack collision PropPoint.kToDCA).cov.c11
      (prop fwdtrack collision PropPoint.kToDCA).cov.c01
      (dcaXYat M prop fwdtrack collision)
      (baseCalls fwdtrack ++ [(fwdtrack, PropPoint.kToRabs)])
  else
    { emitted := none, propCalls := baseCalls fwdtrack }

/-- One (collision, track) pair handed to the Candidate Builder by a
pipeline driver, with the matched rows already resolved. -/
structure TrackInput where
  collision : Collision
  fwdtrack : FwdTrack
  mchtrack : FwdTrack
  mfttrack : MFTTrack
  isAmbiguous : Bool

/-- The per-(collision, track) loop shared by the pipeline drivers:
every fillFwdTrackTable call appends its emitted pair (if any) to the
EMPrimaryMuons and EMPrimaryMuonsCov tables, in input order. -/
def processTracks (cfg : Config) (M : MathModel) (prop : Propagator) :
    List TrackInput → List Candidate × List Cov5
  | [] => ([], [])
  | t :: ts =>
    let rest := processTracks cfg M prop ts
    match (fillFwdTrackTable cfg M prop t.collision t.fwdtrack t.mchtrack
        t.mfttrack t.isAmbiguous).emitted with
    | none => rest
    | some (c, cv) => (c :: rest.1, cv :: rest.2)

/-- The variant of fillFwdTrackTable demanded by the specification of
the Candidate Builder: identical to the source except that the three
cheap early rejections of the GlobalMuon branch (absorber radius, DCA
magnitude, chi2 per ndf; source lines 260-282) are removed, leaving the
final isSelected gate to decide.  Used to show the early exits are a
pure cost optimisation. -/
def fillFwdTrackTableNoEarlyCuts (cfg : Config) (M : MathModel) (prop : Propagator)
    (collision : Collision) (fwdtrack mchtrack : FwdTrack) (mfttrack : MFTTrack)
    (isAmbiguous : Bool) : FillResult :=
  if fwdtrack.trackType = GlobalMuonTrack ∧
      fwdtrack.chi2MatchMCHMFT > cfg.maxMatchingChi2MCHMFT then
    { emitted := none, propCalls := [] }
  else if fwdtrack.chi2MatchMCHMID < 0 then
    { emitted := none, propCalls := [] }
  else if fwdtrack.chi2 < 0 then
    { emitted := none, propCalls := [] }
  else if fwdtrack.trackType = GlobalMuonTrack then
    finishFill cfg collision fwdtrack isAmbiguous
      (prop fwdtrack collision PropPoint.kToVertex)
      (if cfg.refitGlobalMuon then
        (prop mchtrack collision PropPoint.kToVertex).p *
          M.sin (2 * M.atan (M.exp (-mfttrack.eta)))
      else (prop fwdtrack collision PropPoint.kToVertex).pt)
      (if cfg.refitGlobalMuon then mfttrack.eta
      else (prop fwdtrack collision PropPoint.kToVertex).eta)
      (if cfg.refitGlobalMuon then M.bringTo02Pi mfttrack.phi
      else M.bringTo02Pi (prop fwdtrack collision PropPoint.kToVertex).phi)
      (prop mchtrack collision PropPoint.kToVertex).pt
      (prop mchtrack collision PropPoint.kToVertex).eta
      (M.bringTo02Pi (prop mchtrack collision PropPoint.kToVertex).phi)
      mfttrack.mftClusterSizesAndTrackFlags mfttrack.chi2 (ndfOf mchtrack mfttrack)
      (mchtrack.p * dcaXYat M prop mchtrack collision)
      fwdtrack.rAtAbsorberEnd
      (dcaXat prop fwdtrack collision) (dcaYat prop fwdtrack collision)
      (prop fwdtrack collision PropPoint.kToDCA).cov.c00
      (prop fwdtrack collision PropPoint.kToDCA).cov.c11
      (prop fwdtrack collision PropPoint.kToDCA).cov.c01
      (dcaXYat M prop fwdtrack collision)
      (baseCalls fwdtrack ++
        [(mchtrack, PropPoint.kToVertex), (mchtrack, PropPoint.kToDCA)])
  else if fwdtrack.trackType = MuonStandaloneTrack then
    finishFill cfg collision fwdtrack isAmbiguous
      (prop fwdtrack collision PropPoint.kToVertex)
      (prop fwdtrack collision PropPoint.kToVertex).pt
      (prop fwdtrack collision PropPoint.kToVertex).eta
      (M.bringTo02Pi (prop fwdtrack collision PropPoint.kToVertex).phi)
      (prop fwdtrack collision PropPoint.kToVertex).pt
      (prop fwdtrack collision PropPoint.kToVertex).eta
      (M.bringTo02Pi (prop fwdtrack collision PropPoint.kToVertex).phi)
      0 0 1
      (fwdtrack.p * dcaXYat M prop fwdtrack collision)
      (rAtAbsorberEndSA M prop fwdtrack collision)
      (dcaXat prop fwdtrack collision) (dcaYat prop fwdtrack collision)
      (prop fwdtrack collision PropPoint.kToDCA).cov.c00
      (prop fwdtrack collision PropPoint.kToDCA).cov.c11
      (prop fwdtrack collision PropPoint.kToDCA).cov.c01
      (dcaXYat M prop fwdtrack collision)
      (baseCalls fwdtrack ++ [(fwdtrack, PropPoint.kToRabs)])
  else
    { emitted := none, propCalls := baseCalls fwdtrack }

/-- One row of the EMPrimaryMuons table as read back by the two
cross-reference tasks associateAmbiguousMuon and associateSameMFT. -/
structure MuonRow where
  collisionId : ℤ
  fwdtrackId : ℤ
  mfttrackId : ℤ
  trackType : Nat
deriving DecidableEq

/-- Table rows paired with their global index (row number), starting at
n: the soa iteration order of an O2 table. -/
def enumFrom {α : Type} : ℕ → List α → List (ℕ × α)
  | _, [] => []
  | n, a :: as => (n, a) :: enumFrom (n + 1) as

/-- The index list emitted by associateAmbiguousMuon::process for the
row m at global index i (source lines 587-602): all rows sharing the
same fwdtrackId, in table order, excluding the row itself. -/
def ambListFor (muons : List MuonRow) (i : ℕ) (m : MuonRow) : List ℕ :=
  ((enumFrom 0 muons).filter
      (fun q => decide (q.2.fwdtrackId = m.fwdtrackId ∧ q.1 ≠ i))).map Prod.fst

/-- associateAmbiguousMuon::process: one index list per row of the
EMPrimaryMuons table. -/
def associateAmbiguousMuon (muons : List MuonRow) : List (List ℕ) :=
  (enumFrom 0 muons).map (fun q => ambListFor muons q.1 q.2)

/-- The index list emitted by associateSameMFT::process for the row m at
global index i (source lines 611-632): for a GlobalMuonTrack row, all
rows sharing the same mfttrackId and the same collisionId, in table
order, excluding the row itself; for every other row the empty list. -/
def sameMFTListFor (muons : List MuonRow) (i : ℕ) (m : MuonRow) : List ℕ :=
  if m.trackType = GlobalMuonTrack then
    ((enumFrom 0 muons).filter
        (fun q => decide (q.2.mfttrackId = m.mfttrackId ∧ q.1 ≠ i ∧
          q.2.collisionId = m.collisionId))).map Prod.fst
  else
    []

/-- associateSameMFT::process: one index list per row of the
EMPrimaryMuons table. -/
def associateSameMFT (muons : List MuonRow) : List (List ℕ) :=
  (enumFrom 0 muons).map (fun q => sameMFTListFor muons q.1 q.2)

set_option maxHeartbeats 1600000 in
/-- Claim C1: isSelected returns true if and only if the pure conjunction
holds: pt in [minPt, maxPt]; rAtAbsorberEnd in [minRabs, maxRabs]; the
radius-zoned pDCA cut; and the category-specific block (GlobalMuon: eta
in [minEtaGL, maxEtaGL], dcaXY <= maxDCAxy, chi2 per ndf <= maxChi2GL,
rAtAbsorberEnd in [minRabsGL, maxRabs]; StandaloneMuon: eta in
[minEtaSA, maxEtaSA] and chi2 per ndf <= maxChi2SA; any other category
is rejected unconditionally).  Being an iff against an order-free
conjunction, the result is independent of evaluation order. -/
theorem isSelected_iff_conjunction (cfg : Config)
    (pt eta rAtAbsorberEnd pDCA chi2_per_ndf : ℚ) (trackType : Nat) (dcaXY : ℚ) :
    isSelected cfg pt eta rAtAbsorberEnd pDCA chi2_per_ndf trackType dcaXY = true ↔
      ((cfg.minPt ≤ pt ∧ pt ≤ cfg.maxPt) ∧
       (cfg.minRabs ≤ rAtAbsorberEnd ∧ rAtAbsorberEnd ≤ cfg.maxRabs) ∧
       (if rAtAbsorberEnd < cfg.midRabs then pDCA ≤ cfg.maxPDCAforSmallR
        else pDCA ≤ cfg.maxPDCAforLargeR) ∧
       ((trackType = GlobalMuonTrack ∧
           (cfg.minEtaGL ≤ eta ∧ eta ≤ cfg.maxEtaGL) ∧
           dcaXY ≤ cfg.maxDCAxy ∧
           chi2_per_ndf ≤ cfg.maxChi2GL ∧
           (cfg.minRabsGL ≤ rAtAbsorberEnd ∧ rAtAbsorberEnd ≤ cfg.maxRabs)) ∨
        (trackType = MuonStandaloneTrack ∧
           (cfg.minEtaSA ≤ eta ∧ eta ≤ cfg.maxEtaSA) ∧
           chi2_per_ndf ≤ cfg.maxChi2SA))) := by
  unfold isSelected
  split_ifs with h1 h2 h3 h4 h5 h6 h7 h8 h9 h10 h11 <;>
    push_neg at * <;>
    simp_all [GlobalMuonTrack, MuonStandaloneTrack] <;>
    first
      | tauto
      | (intros; casesm* _ ∨ _, _ ∧ _ <;> linarith)

/-- Helper: finishFill either emits nothing, or emits one candidate
paired with the covariance record of the propmuonAtPV argument such
that isSelected holds on the stored metrics of the candidate. -/
theorem finishFill_cases {cfg : Config} {collision : Collision}
    {fwdtrack : FwdTrack} {isAmbiguous : Bool} {propmuonAtPV : PropState}
    {pt eta phi ptM etaM phiM : ℚ} {flags : ℕ} {chi2mft : ℚ} {ndf : ℤ}
    {pDCA r dX dY cXX cYY cXY dcaXY : ℚ} {calls : List PropCall}
    (ndfAlt : ℤ) (hndf : ndfAlt = ndf) :
    (finishFill cfg collision fwdtrack isAmbiguous propmuonAtPV pt eta phi
        ptM etaM phiM flags chi2mft ndf pDCA r dX dY cXX cYY cXY dcaXY calls).emitted
        = none ∨
    ∃ c, (finishFill cfg collision fwdtrack isAmbiguous propmuonAtPV pt eta phi
        ptM etaM phiM flags chi2mft ndf pDCA r dX dY cXX cYY cXY dcaXY calls).emitted
        = some (c, propmuonAtPV.cov) ∧
      isSelected cfg c.pt c.eta c.rAtAbsorberEnd c.pDCA (c.chi2 / (ndfAlt : ℚ))
        fwdtrack.trackType dcaXY = true := by
  subst hndf
  unfold finishFill
  by_cases hsel : isSelected cfg pt eta r pDCA (fwdtrack.chi2 / (ndfAlt : ℚ))
      fwdtrack.trackType dcaXY = true
  · rw [if_neg (by simp [hsel])]
    exact Or.inr ⟨_, rfl, hsel⟩
  · rw [if_pos (by simp [hsel])]
    exact Or.inl rfl

/-- Helper: if finishFill emits, the candidate is exactly the assembled
record, the covariance record is the one of propmuonAtPV, and the
isSelected gate held on the assembled metrics. -/
theorem finishFill_emitted_some {cfg : Config} {collision : Collision}
    {fwdtrack : FwdTrack} {isAmbiguous : Bool} {propmuonAtPV : PropState}
    {pt eta phi ptM etaM phiM : ℚ} {flags : ℕ} {chi2mft : ℚ} {ndf : ℤ}
    {pDCA r dX dY cXX cYY cXY dcaXY : ℚ} {calls : List PropCall}
    {c : Candidate} {cv : Cov5}
    (h : (finishFill cfg collision fwdtrack isAmbiguous propmuonAtPV pt eta phi
        ptM etaM phiM flags chi2mft ndf pDCA r dX dY cXX cYY cXY dcaXY calls).emitted
        = some (c, cv)) :
    c.pt = pt ∧ c.eta = eta ∧ c.phi = phi ∧ c.pDCA = pDCA ∧
      c.rAtAbsorberEnd = r ∧ c.trackType = fwdtrack.trackType ∧
      cv = propmuonAtPV.cov ∧
      isSelected cfg pt eta r pDCA (fwdtrack.chi2 / (ndf : ℚ))
        fwdtrack.trackType dcaXY = true := by
  unfold finishFill at h
  by_cases hsel : isSelected cfg pt eta r pDCA (fwdtrack.chi2 / (ndf : ℚ))
      fwdtrack.trackType dcaXY = true
  · rw [if_neg (by simp [hsel])] at h
    simp only [Option.some.injEq, Prod.mk.injEq] at h
    obtain ⟨hc, hv⟩ := h
    subst hc
    subst hv
    exact ⟨rfl, rfl, rfl, rfl, rfl, rfl, rfl, hsel⟩
  · rw [if_pos (by simp [hsel])] at h
    simp at h

set_option maxHeartbeats 1000000 in
/-- Claim C2: every processed track either yields no output row at all,
or yields exactly one candidate row paired with exactly one covariance
row, the covariance row always being the covariance of the vertex
propagation of the track itself (propmuonAtPV), never of the matched
sub-segment, whatever the refitGlobalMuon flag; consequently the two
output tables of the driver loop always have equal row counts, rows
paired in emission order. -/
theorem fill_emits_paired_rows (cfg : Config) (M : MathModel) (prop : Propagator) :
    (∀ (collision : Collision) (fwdtrack mchtrack : FwdTrack)
        (mfttrack : MFTTrack) (isAmbiguous : Bool),
      (fillFwdTrackTable cfg M prop collision fwdtrack mchtrack mfttrack
          isAmbiguous).emitted = none ∨
      ∃ c, (fillFwdTrackTable cfg M prop collision fwdtrack mchtrack mfttrack
          isAmbiguous).emitted =
          some (c, (prop fwdtrack collision PropPoint.kToVertex).cov) ∧
        isSelected cfg c.pt c.eta c.rAtAbsorberEnd c.pDCA
          (c.chi2 / (((if fwdtrack.trackType = GlobalMuonTrack then
              ndfOf mchtrack mfttrack else 1) : ℤ) : ℚ))
          fwdtrack.trackType (dcaXYat M prop fwdtrack collision) = true) ∧
    (∀ ins : List TrackInput,
      (processTracks cfg M prop ins).1.length =
        (processTracks cfg M prop ins).2.length) := by
  constructor
  · intro collision fwdtrack mchtrack mfttrack isAmbiguous
    unfold fillFwdTrackTable
    split_ifs <;>
      first
        | exact Or.inl rfl
        | exact finishFill_cases _ rfl
  · intro ins
    induction ins with
    | nil => rfl
    | cons t ts ih =>
      simp only [processTracks]
      cases hemit : (fillFwdTrackTable cfg M prop t.collision t.fwdtrack
          t.mchtrack t.mfttrack t.isAmbiguous).emitted with
      | none => simpa [hemit] using ih
      | some p =>
        obtain ⟨c, cv⟩ := p
        simp [hemit, ih]

set_option maxHeartbeats 1000000 in
/-- Claim C3: the stored pDCA of every emitted candidate is a total
momentum times a DCA magnitude sqrt(dcaX^2 + dcaY^2) taken from a
DCA-plane propagation relative to the collision vertex: for a GlobalMuon
the matched MCH-MID track's momentum (and its DCA propagation) is used,
for a StandaloneMuon the track's own momentum (and its own DCA
propagation). -/
theorem emitted_pDCA_momentum_choice (cfg : Config) (M : MathModel)
    (prop : Propagator) (collision : Collision) (fwdtrack mchtrack : FwdTrack)
    (mfttrack : MFTTrack) (isAmbiguous : Bool) (c : Candidate) (cv : Cov5)
    (h : (fillFwdTrackTable cfg M prop collision fwdtrack mchtrack mfttrack
        isAmbiguous).emitted = some (c, cv)) :
    (fwdtrack.trackType = GlobalMuonTrack →
      c.pDCA = mchtrack.p * M.sqrt
        (((prop mchtrack collision PropPoint.kToDCA).x - collision.posX) *
           ((prop mchtrack collision PropPoint.kToDCA).x - collision.posX) +
         ((prop mchtrack collision PropPoint.kToDCA).y - collision.posY) *
           ((prop mchtrack collision PropPoint.kToDCA).y - collision.posY))) ∧
    (fwdtrack.trackType = MuonStandaloneTrack →
      c.pDCA = fwdtrack.p * M.sqrt
        (((prop fwdtrack collision PropPoint.kToDCA).x - collision.posX) *
           ((prop fwdtrack collision PropPoint.kToDCA).x - collision.posX) +
         ((prop fwdtrack collision PropPoint.kToDCA).y - collision.posY) *
           ((prop fwdtrack collision PropPoint.kToDCA).y - collision.posY))) := by
  unfold fillFwdTrackTable at h
  split_ifs at h with g1 g2 g3 g4 g5 g6 g7 g8 g9
  · obtain ⟨hpt, heta, hphi, hpdca, hr, htt, hcv, hsel⟩ :=
      finishFill_emitted_some h
    exact ⟨fun _ => hpdca, fun hts => absurd (g4.symm.trans hts) (by decide)⟩
  · obtain ⟨hpt, heta, hphi, hpdca, hr, htt, hcv, hsel⟩ :=
      finishFill_emitted_some h
    exact ⟨fun _ => hpdca, fun hts => absurd (g4.symm.trans hts) (by decide)⟩
  · obtain ⟨hpt, heta, hphi, hpdca, hr, htt, hcv, hsel⟩ :=
      finishFill_emitted_some h
    exact ⟨fun htg => absurd htg g4, fun _ => hpdca⟩

/-- Helper: finishFill emits nothing when the isSelected gate fails. -/
theorem finishFill_emitted_none {cfg : Config} {collision : Collision}
    {fwdtrack : FwdTrack} {isAmbiguous : Bool} {propmuonAtPV : PropState}
    {pt eta phi ptM etaM phiM : ℚ} {flags : ℕ} {chi2mft : ℚ} {ndf : ℤ}
    {pDCA r dX dY cXX cYY cXY dcaXY : ℚ} {calls : List PropCall}
    (hsel : isSelected cfg pt eta r pDCA (fwdtrack.chi2 / (ndf : ℚ))
        fwdtrack.trackType dcaXY = false) :
    (finishFill cfg collision fwdtrack isAmbiguous propmuonAtPV pt eta phi
        ptM etaM phiM flags chi2mft ndf pDCA r dX dY cXX cYY cXY dcaXY calls).emitted
      = none := by
  unfold finishFill
  rw [if_pos (by simp [hsel])]

/-- Helper: a GlobalMuon whose absorber-end radius is outside
[minRabsGL, maxRabs] fails isSelected whatever the other metrics. -/
theorem isSelected_false_rabsGL (cfg : Config) (pt eta r pDCA chi2 : ℚ)
    (tt : Nat) (dcaXY : ℚ) (htt : tt = GlobalMuonTrack)
    (h : r < cfg.minRabsGL ∨ cfg.maxRabs < r) :
    isSelected cfg pt eta r pDCA chi2 tt dcaXY = false := by
  subst htt
  unfold isSelected
  split_ifs <;>
    first
      | rfl
      | tauto

/-- Helper: a GlobalMuon whose DCA magnitude exceeds maxDCAxy fails
isSelected whatever the other metrics. -/
theorem isSelected_false_dcaGL (cfg : Config) (pt eta r pDCA chi2 : ℚ)
    (tt : Nat) (dcaXY : ℚ) (htt : tt = GlobalMuonTrack)
    (h : cfg.maxDCAxy < dcaXY) :
    isSelected cfg pt eta r pDCA chi2 tt dcaXY = false := by
  subst htt
  unfold isSelected
  split_ifs <;>
    first
      | rfl
      | tauto

/-- Helper: a GlobalMuon whose chi2 per ndf exceeds maxChi2GL fails
isSelected whatever the other metrics. -/
theorem isSelected_false_chi2GL (cfg : Config) (pt eta r pDCA chi2 : ℚ)
    (tt : Nat) (dcaXY : ℚ) (htt : tt = GlobalMuonTrack)
    (h : cfg.maxChi2GL < chi2) :
    isSelected cfg pt eta r pDCA chi2 tt dcaXY = false := by
  subst htt
  unfold isSelected
  split_ifs <;>
    first
      | rfl
      | tauto

set_option maxHeartbeats 2000000 in
/-- Claim C7: the three cheap early rejections of the GlobalMuon branch
(absorber-end radius outside [minRabsGL, maxRabs], dcaXY above maxDCAxy,
chi2 per ndf above maxChi2GL) reject exactly the tracks that the final
isSelected gate would reject on the same metrics: the variant with the
early exits removed emits exactly the same rows for every input, so
removing or reordering them changes no final accept/reject outcome. -/
theorem earlyCuts_preserve_outcome (cfg : Config) (M : MathModel)
    (prop : Propagator) (collision : Collision) (fwdtrack mchtrack : FwdTrack)
    (mfttrack : MFTTrack) (isAmbiguous : Bool) :
    (fillFwdTrackTableNoEarlyCuts cfg M prop collision fwdtrack mchtrack
        mfttrack isAmbiguous).emitted =
    (fillFwdTrackTable cfg M prop collision fwdtrack mchtrack mfttrack
        isAmbiguous).emitted := by
  unfold fillFwdTrackTable fillFwdTrackTableNoEarlyCuts
  split_ifs with g1 g2 g3 g4 g5 g6 g7 g8 g9 g10 g11
  all_goals try rfl
  · exact finishFill_emitted_none (isSelected_false_rabsGL cfg _ _ _ _ _ _ _ g4 g6)
  · exact finishFill_emitted_none (isSelected_false_dcaGL cfg _ _ _ _ _ _ _ g4 g7)
  · exact finishFill_emitted_none (isSelected_false_chi2GL cfg _ _ _ _ _ _ _ g4 g8)
  · exact finishFill_emitted_none (isSelected_false_rabsGL cfg _ _ _ _ _ _ _ g4 g9)
  · exact finishFill_emitted_none (isSelected_false_dcaGL cfg _ _ _ _ _ _ _ g4 g10)
  · exact finishFill_emitted_none (isSelected_false_chi2GL cfg _ _ _ _ _ _ _ g4 g11)

set_option maxHeartbeats 1000000 in
/-- Claim C6: for an accepted GlobalMuon, when refitGlobalMuon is set
the emitted eta and phi are overwritten with the matched MFT
sub-segment's own eta and phi (phi normalised to [0, 2pi)) and the
emitted pt is recomputed from the total momentum of the matched MCH-MID
leg's vertex propagation combined with the sub-segment's eta through
pt = p * sin(2 * atan(exp(-eta))); when the flag is unset the emitted
pt, eta and phi are those of the track's own vertex propagation. -/
theorem refit_overwrites_kinematics (cfg : Config) (M : MathModel)
    (prop : Propagator) (collision : Collision) (fwdtrack mchtrack : FwdTrack)
    (mfttrack : MFTTrack) (isAmbiguous : Bool) (c : Candidate) (cv : Cov5)
    (htt : fwdtrack.trackType = GlobalMuonTrack)
    (h : (fillFwdTrackTable cfg M prop collision fwdtrack mchtrack mfttrack
        isAmbiguous).emitted = some (c, cv)) :
    (cfg.refitGlobalMuon = true →
      c.eta = mfttrack.eta ∧
      c.phi = M.bringTo02Pi mfttrack.phi ∧
      c.pt = (prop mchtrack collision PropPoint.kToVertex).p *
        M.sin (2 * M.atan (M.exp (-mfttrack.eta)))) ∧
    (cfg.refitGlobalMuon = false →
      c.pt = (prop fwdtrack collision PropPoint.kToVertex).pt ∧
      c.eta = (prop fwdtrack collision PropPoint.kToVertex).eta ∧
      c.phi = M.bringTo02Pi (prop fwdtrack collision PropPoint.kToVertex).phi) := by
  unfold fillFwdTrackTable at h
  split_ifs at h with g1 g2 g3 g4 g5 g6 g7
  · obtain ⟨hpt, heta, hphi, hpdca, hr, htt2, hcv, hsel⟩ :=
      finishFill_emitted_some h
    refine ⟨fun _ => ⟨heta, hphi, hpt⟩, fun hrf => ?_⟩
    rw [hrf] at g7
    exact Bool.noConfusion g7
  · obtain ⟨hpt, heta, hphi, hpdca, hr, htt2, hcv, hsel⟩ :=
      finishFill_emitted_some h
    exact ⟨fun hrf => absurd hrf g7, fun _ => ⟨hpt, heta, hphi⟩⟩

/-- Claim C4: if the DCA-plane covariance determinant is negative, the
DCA significance is exactly the sentinel 999 (and the computation is a
total function, so processing continues); otherwise it is
sqrt(|dcaX^2 sigma_yy + dcaY^2 sigma_xx - 2 dcaX dcaY sigma_xy| / det / 2)
and sigma_dcaXY is dcaXY divided by the significance. -/
theorem dcaXYinSigma_sentinel_or_formula (M : MathModel)
    (dcaX dcaY cXXatDCA cYYatDCA cXYatDCA : ℚ) :
    (cXXatDCA * cYYatDCA - cXYatDCA * cXYatDCA < 0 →
      dcaXYinSigmaOf M dcaX dcaY cXXatDCA cYYatDCA cXYatDCA = 999) ∧
    (0 ≤ cXXatDCA * cYYatDCA - cXYatDCA * cXYatDCA →
      dcaXYinSigmaOf M dcaX dcaY cXXatDCA cYYatDCA cXYatDCA =
        M.sqrt (|dcaX * dcaX * cYYatDCA + dcaY * dcaY * cXXatDCA -
            2 * dcaX * dcaY * cXYatDCA| /
          (cXXatDCA * cYYatDCA - cXYatDCA * cXYatDCA) / 2) ∧
      sigma_dcaXY M dcaX dcaY cXXatDCA cYYatDCA cXYatDCA =
        M.sqrt (dcaX * dcaX + dcaY * dcaY) /
          dcaXYinSigmaOf M dcaX dcaY cXXatDCA cYYatDCA cXYatDCA) := by
  constructor
  · intro hdet
    unfold dcaXYinSigmaOf
    rw [if_pos hdet]
  · intro hdet
    refine ⟨?_, rfl⟩
    unfold dcaXYinSigmaOf
    rw [if_neg (not_lt.mpr hdet)]
    have habs : |(dcaX * dcaX * cYYatDCA + dcaY * dcaY * cXXatDCA -
        2 * dcaX * dcaY * cXYatDCA) /
          (cXXatDCA * cYYatDCA - cXYatDCA * cXYatDCA) / 2| =
        |dcaX * dcaX * cYYatDCA + dcaY * dcaY * cXXatDCA -
            2 * dcaX * dcaY * cXYatDCA| /
          (cXXatDCA * cYYatDCA - cXYatDCA * cXYatDCA) / 2 := by
      rw [abs_div, abs_div, abs_of_nonneg hdet]
      norm_num
    rw [habs]

/-- Witness for claim C4: at a covariance with determinant -1 the
significance is the sentinel 999, and at determinant 4 with DCA (3, 4)
it takes the formula branch. -/
theorem dcaXYinSigma_sentinel_or_formula_witness :
    dcaXYinSigmaOf ⟨id, id, id, id, id⟩ 1 1 0 0 1 = 999 ∧
    dcaXYinSigmaOf ⟨id, id, id, id, id⟩ 3 4 2 2 0 =
      MathModel.sqrt ⟨id, id, id, id, id⟩
        (|(3 : ℚ) * 3 * 2 + 4 * 4 * 2 - 2 * 3 * 4 * 0| / (2 * 2 - 0 * 0) / 2) :=
  ⟨(dcaXYinSigma_sentinel_or_formula ⟨id, id, id, id, id⟩ 1 1 0 0 1).1 (by norm_num),
   ((dcaXYinSigma_sentinel_or_formula ⟨id, id, id, id, id⟩ 3 4 2 2 0).2
      (by norm_num)).1⟩

/-- Claim C10: the sentinel substitution applies only for a strictly
negative determinant.  At determinant exactly zero the guard is false,
so the computation takes the division branch and the divisor of the
significance formula is the literal zero; the result is the sqrt of
that unguarded division, not the sentinel assignment. -/
theorem dcaXYinSigma_det_zero_unguarded (M : MathModel)
    (dcaX dcaY cXXatDCA cYYatDCA cXYatDCA : ℚ)
    (hdet : cXXatDCA * cYYatDCA - cXYatDCA * cXYatDCA = 0) :
    ¬ (cXXatDCA * cYYatDCA - cXYatDCA * cXYatDCA < 0) ∧
    dcaXYinSigmaOf M dcaX dcaY cXXatDCA cYYatDCA cXYatDCA =
      M.sqrt (|(dcaX * dcaX * cYYatDCA + dcaY * dcaY * cXXatDCA -
          2 * dcaX * dcaY * cXYatDCA) / 0 / 2|) := by
  refine ⟨by rw [hdet]; exact lt_irrefl 0, ?_⟩
  unfold dcaXYinSigmaOf
  rw [if_neg (by rw [hdet]; exact lt_irrefl 0), hdet]

/-- Witness for claim C10: a covariance with sigma_xx = sigma_yy =
sigma_xy = 1 has determinant exactly zero and lands in the division
branch. -/
theorem dcaXYinSigma_det_zero_unguarded_witness :
    ¬ ((1 : ℚ) * 1 - 1 * 1 < 0) ∧
    dcaXYinSigmaOf ⟨id, id, id, id, id⟩ 1 2 1 1 1 =
      MathModel.sqrt ⟨id, id, id, id, id⟩
        (|((1 : ℚ) * 1 * 1 + 2 * 2 * 1 - 2 * 1 * 2 * 1) / 0 / 2|) :=
  dcaXYinSigma_det_zero_unguarded ⟨id, id, id, id, id⟩ 1 2 1 1 1 (by norm_num)

/-- Claim C5: a GlobalMuon whose MCH-MFT matching chi2 exceeds the
ceiling, and any track with a negative MCH-MID matching chi2 or a
negative own fit chi2, is rejected before any propagation: the
propagation engine is never invoked for it and nothing is emitted. -/
theorem early_return_before_propagation (cfg : Config) (M : MathModel)
    (prop : Propagator) (collision : Collision) (fwdtrack mchtrack : FwdTrack)
    (mfttrack : MFTTrack) (isAmbiguous : Bool)
    (h : (fwdtrack.trackType = GlobalMuonTrack ∧
            fwdtrack.chi2MatchMCHMFT > cfg.maxMatchingChi2MCHMFT) ∨
         fwdtrack.chi2MatchMCHMID < 0 ∨ fwdtrack.chi2 < 0) :
    (fillFwdTrackTable cfg M prop collision fwdtrack mchtrack mfttrack
        isAmbiguous).propCalls = [] ∧
    (fillFwdTrackTable cfg M prop collision fwdtrack mchtrack mfttrack
        isAmbiguous).emitted = none := by
  by_cases g1 : fwdtrack.trackType = GlobalMuonTrack ∧
      fwdtrack.chi2MatchMCHMFT > cfg.maxMatchingChi2MCHMFT
  · unfold fillFwdTrackTable
    rw [if_pos g1]
    exact ⟨rfl, rfl⟩
  · by_cases g2 : fwdtrack.chi2MatchMCHMID < 0
    · unfold fillFwdTrackTable
      rw [if_neg g1, if_pos g2]
      exact ⟨rfl, rfl⟩
    · by_cases g3 : fwdtrack.chi2 < 0
      · unfold fillFwdTrackTable
        rw [if_neg g1, if_neg g2, if_pos g3]
        exact ⟨rfl, rfl⟩
      · tauto

/-- Witness for claim C5: a concrete GlobalMuon with matching chi2 60
against a ceiling of 50 triggers the pre-propagation rejection. -/
theorem early_return_before_propagation_witness :
    (fillFwdTrackTable
        ⟨0, 100, -10, 10, -10, 10, 1, 1, 5, 100, 100, 10000, 10000, 50, 1000000,
          1000000, true⟩
        ⟨id, id, id, id, id⟩
        (fun _ _ _ => ⟨1, -2, 1, 10, 1, 1, ⟨1, 0, 1, 0, 0, 0, 0, 0, 0, 0, 0, 0, 0, 0, 0⟩⟩)
        ⟨0, 0, 0, 0⟩
        ⟨7, 0, 0, 3, 1, 1, 1, 60, 10, 9, 100, 200, 5, 6, 7⟩
        ⟨200, 0, 3, 10, 1, 1, 1, 1, 10, 5, 100, 200, 5, 6, 7⟩
        ⟨100, 5, 42, 2, -3, 1⟩ false).propCalls = [] ∧
    (fillFwdTrackTable
        ⟨0, 100, -10, 10, -10, 10, 1, 1, 5, 100, 100, 10000, 10000, 50, 1000000,
          1000000, true⟩
        ⟨id, id, id, id, id⟩
        (fun _ _ _ => ⟨1, -2, 1, 10, 1, 1, ⟨1, 0, 1, 0, 0, 0, 0, 0, 0, 0, 0, 0, 0, 0, 0⟩⟩)
        ⟨0, 0, 0, 0⟩
        ⟨7, 0, 0, 3, 1, 1, 1, 60, 10, 9, 100, 200, 5, 6, 7⟩
        ⟨200, 0, 3, 10, 1, 1, 1, 1, 10, 5, 100, 200, 5, 6, 7⟩
        ⟨100, 5, 42, 2, -3, 1⟩ false).emitted = none := by
  apply early_return_before_propagation
  exact Or.inl ⟨rfl, by norm_num⟩

/-- Witness for claim C3: a concrete accepted GlobalMuon whose matched
MCH-MID leg has momentum 10 and matched DCA components (1, 1): its
stored pDCA is that momentum times the matched DCA magnitude. -/
theorem emitted_pDCA_momentum_choice_witness :
    (⟨0, 7, 100, 200, 0, 60, -3, 1, 1, 1, 1, 1, 1, 0, 1, -2, 1, 9, 20, 10, 1,
        1, 1, 5, 6, 7, 42, 2, true, false⟩ : Candidate).pDCA =
      (⟨200, 0, 3, 10, 1, 1, 1, 1, 10, 5, 100, 200, 5, 6, 7⟩ : FwdTrack).p *
        MathModel.sqrt ⟨id, id, id, id, id⟩
          (((1 : ℚ) - 0) * ((1 : ℚ) - 0) + ((1 : ℚ) - 0) * ((1 : ℚ) - 0)) :=
  (emitted_pDCA_momentum_choice
      ⟨0, 100, -10, 10, -10, 10, 1, 1, 5, 100, 100, 10000, 10000, 50, 1000000,
        1000000, true⟩
      ⟨id, id, id, id, id⟩
      (fun _ _ _ => ⟨1, -2, 1, 10, 1, 1, ⟨1, 0, 1, 0, 0, 0, 0, 0, 0, 0, 0, 0, 0, 0, 0⟩⟩)
      ⟨0, 0, 0, 0⟩
      ⟨7, 0, 0, 3, 1, 1, 1, 1, 10, 9, 100, 200, 5, 6, 7⟩
      ⟨200, 0, 3, 10, 1, 1, 1, 1, 10, 5, 100, 200, 5, 6, 7⟩
      ⟨100, 5, 42, 2, -3, 1⟩ false
      ⟨0, 7, 100, 200, 0, 60, -3, 1, 1, 1, 1, 1, 1, 0, 1, -2, 1, 9, 20, 10, 1,
        1, 1, 5, 6, 7, 42, 2, true, false⟩
      ⟨1, 0, 1, 0, 0, 0, 0, 0, 0, 0, 0, 0, 0, 0, 0⟩
      (by norm_num [fillFwdTrackTable, finishFill, isSelected, dcaXYat, dcaXat,
        dcaYat, ndfOf, baseCalls, rAtAbsorberEndSA, GlobalMuonTrack,
        MuonStandaloneTrack])).1 rfl

/-- Witness for claim C6: the same concrete accepted GlobalMuon with the
refit flag set: its emitted eta and phi are the MFT track's eta and phi
and its pt is the matched leg's vertex momentum folded through
sin(2 atan(exp(-eta))). -/
theorem refit_overwrites_kinematics_witness :
    (⟨0, 7, 100, 200, 0, 60, -3, 1, 1, 1, 1, 1, 1, 0, 1, -2, 1, 9, 20, 10, 1,
        1, 1, 5, 6, 7, 42, 2, true, false⟩ : Candidate).eta =
      (⟨100, 5, 42, 2, -3, 1⟩ : MFTTrack).eta ∧
    (⟨0, 7, 100, 200, 0, 60, -3, 1, 1, 1, 1, 1, 1, 0, 1, -2, 1, 9, 20, 10, 1,
        1, 1, 5, 6, 7, 42, 2, true, false⟩ : Candidate).phi =
      MathModel.bringTo02Pi ⟨id, id, id, id, id⟩
        (⟨100, 5, 42, 2, -3, 1⟩ : MFTTrack).phi ∧
    (⟨0, 7, 100, 200, 0, 60, -3, 1, 1, 1, 1, 1, 1, 0, 1, -2, 1, 9, 20, 10, 1,
        1, 1, 5, 6, 7, 42, 2, true, false⟩ : Candidate).pt =
      (10 : ℚ) * MathModel.sin ⟨id, id, id, id, id⟩
        (2 * MathModel.atan ⟨id, id, id, id, id⟩
          (MathModel.exp ⟨id, id, id, id, id⟩
            (-(⟨100, 5, 42, 2, -3, 1⟩ : MFTTrack).eta))) :=
  (refit_overwrites_kinematics
      ⟨0, 100, -10, 10, -10, 10, 1, 1, 5, 100, 100, 10000, 10000, 50, 1000000,
        1000000, true⟩
      ⟨id, id, id, id, id⟩
      (fun _ _ _ => ⟨1, -2, 1, 10, 1, 1, ⟨1, 0, 1, 0, 0, 0, 0, 0, 0, 0, 0, 0, 0, 0, 0⟩⟩)
      ⟨0, 0, 0, 0⟩
      ⟨7, 0, 0, 3, 1, 1, 1, 1, 10, 9, 100, 200, 5, 6, 7⟩
      ⟨200, 0, 3, 10, 1, 1, 1, 1, 10, 5, 100, 200, 5, 6, 7⟩
      ⟨100, 5, 42, 2, -3, 1⟩ false
      ⟨0, 7, 100, 200, 0, 60, -3, 1, 1, 1, 1, 1, 1, 0, 1, -2, 1, 9, 20, 10, 1,
        1, 1, 5, 6, 7, 42, 2, true, false⟩
      ⟨1, 0, 1, 0, 0, 0, 0, 0, 0, 0, 0, 0, 0, 0, 0⟩
      rfl (by norm_num [fillFwdTrackTable, finishFill, isSelected, dcaXYat,
        dcaXat, dcaYat, ndfOf, baseCalls, rAtAbsorberEndSA, GlobalMuonTrack,
        MuonStandaloneTrack])).1 rfl

/-- Helper: entries of an indexed table. -/
theorem mem_enumFrom {α : Type} (l : List α) (n j : ℕ) (a : α) :
    (j, a) ∈ enumFrom n l ↔ ∃ k, j = n + k ∧ l.get? k = some a := by
  induction l generalizing n with
  | nil => simp [enumFrom]
  | cons b bs ih =>
    simp only [enumFrom, List.mem_cons, ih, Prod.mk.injEq]
    constructor
    · rintro (⟨rfl, rfl⟩ | ⟨k, rfl, hget⟩)
      · exact ⟨0, by omega, rfl⟩
      · exact ⟨k + 1, by omega, hget⟩
    · rintro ⟨k, rfl, hget⟩
      cases k with
      | zero =>
        simp only [List.get?] at hget
        exact Or.inl ⟨by omega, (Option.some.injEq _ _).mp hget.symm ▸ rfl⟩
      | succ k2 =>
        exact Or.inr ⟨k2, by omega, hget⟩

/-- Helper: lookup of an indexed table. -/
theorem enumFrom_get? {α : Type} (l : List α) (n i : ℕ) :
    (enumFrom n l).get? i = (l.get? i).map (fun a => (n + i, a)) := by
  induction l generalizing n i with
  | nil => simp [enumFrom]
  | cons b bs ih =>
    cases i with
    | zero => simp [enumFrom]
    | succ k =>
      simp only [enumFrom, List.get?]
      rw [ih (n + 1) k]
      have harith : n + 1 + k = n + (k + 1) := by omega
      rw [harith]

/-- Helper: membership in the ambiguous-muon index list of row m at
index i: exactly the rows with the same fwdtrackId, excluding i. -/
theorem mem_ambListFor {muons : List MuonRow} {i j : ℕ} {m : MuonRow} :
    j ∈ ambListFor muons i m ↔
      ∃ m2, muons.get? j = some m2 ∧ m2.fwdtrackId = m.fwdtrackId ∧ j ≠ i := by
  unfold ambListFor
  simp only [List.mem_map, List.mem_filter]
  constructor
  · rintro ⟨⟨j2, m2⟩, ⟨hmem, hpred⟩, rfl⟩
    rw [decide_eq_true_eq] at hpred
    obtain ⟨k, hk, hget⟩ := (mem_enumFrom muons 0 j2 m2).mp hmem
    have hkj : k = j2 := by omega
    exact ⟨m2, hkj ▸ hget, hpred.1, hpred.2⟩
  · rintro ⟨m2, hget, hfid, hne⟩
    refine ⟨(j, m2), ⟨(mem_enumFrom muons 0 j m2).mpr ⟨j, by omega, hget⟩, ?_⟩, rfl⟩
    rw [decide_eq_true_eq]
    exact ⟨hfid, hne⟩

/-- Helper: membership in the same-MFT index list of row m at index i:
nonempty only for GlobalMuon rows, and then exactly the rows with the
same mfttrackId and the same collisionId, excluding i. -/
theorem mem_sameMFTListFor {muons : List MuonRow} {i j : ℕ} {m : MuonRow} :
    j ∈ sameMFTListFor muons i m ↔
      m.trackType = GlobalMuonTrack ∧
      ∃ m2, muons.get? j = some m2 ∧ m2.mfttrackId = m.mfttrackId ∧ j ≠ i ∧
        m2.collisionId = m.collisionId := by
  unfold sameMFTListFor
  by_cases htt : m.trackType = GlobalMuonTrack
  · rw [if_pos htt]
    simp only [htt, true_and, List.mem_map, List.mem_filter]
    constructor
    · rintro ⟨⟨j2, m2⟩, ⟨hmem, hpred⟩, rfl⟩
      rw [decide_eq_true_eq] at hpred
      obtain ⟨k, hk, hget⟩ := (mem_enumFrom muons 0 j2 m2).mp hmem
      have hkj : k = j2 := by omega
      exact ⟨m2, hkj ▸ hget, hpred.1, hpred.2.1, hpred.2.2⟩
    · rintro ⟨m2, hget, hmid, hne, hcol⟩
      refine ⟨(j, m2), ⟨(mem_enumFrom muons 0 j m2).mpr ⟨j, by omega, hget⟩, ?_⟩, rfl⟩
      rw [decide_eq_true_eq]
      exact ⟨hmid, hne, hcol⟩
  · rw [if_neg htt]
    simp [htt]

/-- Helper: row i of the associateAmbiguousMuon output table. -/
theorem associateAmbiguousMuon_get? (muons : List MuonRow) (i : ℕ) (m : MuonRow)
    (h : muons.get? i = some m) :
    (associateAmbiguousMuon muons).get? i = some (ambListFor muons i m) := by
  unfold associateAmbiguousMuon
  rw [List.get?_map, enumFrom_get? muons 0 i, h]
  simp

/-- Helper: row i of the associateSameMFT output table. -/
theorem associateSameMFT_get? (muons : List MuonRow) (i : ℕ) (m : MuonRow)
    (h : muons.get? i = some m) :
    (associateSameMFT muons).get? i = some (sameMFTListFor muons i m) := by
  unfold associateSameMFT
  rw [List.get?_map, enumFrom_get? muons 0 i, h]
  simp

/-- Claim C8: in associateSameMFT, a GlobalMuon row's emitted index list
contains exactly the indices of the other rows sharing both its
mfttrackId and its collisionId; hence for two rows sharing the
mfttrackId but differing in collisionId, neither appears in the other's
list; and every non-GlobalMuon (in particular StandaloneMuon) row
receives the empty list unconditionally. -/
theorem sameMFT_grouping (muons : List MuonRow) (i : ℕ) (m : MuonRow)
    (h : muons.get? i = some m) :
    (associateSameMFT muons).get? i = some (sameMFTListFor muons i m) ∧
    (m.trackType = GlobalMuonTrack →
      ∀ j, j ∈ sameMFTListFor muons i m ↔
        ∃ m2, muons.get? j = some m2 ∧ j ≠ i ∧
          m2.mfttrackId = m.mfttrackId ∧ m2.collisionId = m.collisionId) ∧
    (∀ j m2, muons.get? j = some m2 → m2.mfttrackId = m.mfttrackId →
      m2.collisionId ≠ m.collisionId →
      j ∉ sameMFTListFor muons i m ∧ i ∉ sameMFTListFor muons j m2) ∧
    (m.trackType = MuonStandaloneTrack → sameMFTListFor muons i m = []) := by
  refine ⟨associateSameMFT_get? muons i m h, ?_, ?_, ?_⟩
  · intro htt j
    rw [mem_sameMFTListFor]
    constructor
    · rintro ⟨hg, m2, hget, hmid, hne, hcol⟩
      exact ⟨m2, hget, hne, hmid, hcol⟩
    · rintro ⟨m2, hget, hne, hmid, hcol⟩
      exact ⟨htt, m2, hget, hmid, hne, hcol⟩
  · intro j m2 hget hmid hcol
    constructor
    · intro hmem
      obtain ⟨hg, m3, hget3, hmid3, hne3, hcol3⟩ := mem_sameMFTListFor.mp hmem
      rw [hget] at hget3
      cases hget3
      exact hcol hcol3
    · intro hmem
      obtain ⟨hg, m3, hget3, hmid3, hne3, hcol3⟩ := mem_sameMFTListFor.mp hmem
      rw [h] at hget3
      cases hget3
      exact hcol hcol3.symm
  · intro htt
    unfold sameMFTListFor
    rw [if_neg (by rw [htt]; decide)]

/-- Witness for claim C8: a three-row table in which rows 0 and 1 are
global muons sharing mfttrackId and collisionId, and row 2 shares the
mfttrackId but belongs to another collision: row 0's list is exactly
[1]. -/
theorem sameMFT_grouping_witness :
    (associateSameMFT
        [⟨10, 100, 500, 0⟩, ⟨10, 101, 500, 0⟩, ⟨11, 102, 500, 0⟩]).get? 0 =
      some (sameMFTListFor
        [⟨10, 100, 500, 0⟩, ⟨10, 101, 500, 0⟩, ⟨11, 102, 500, 0⟩] 0
        ⟨10, 100, 500, 0⟩) ∧
    (2 ∉ sameMFTListFor
        [⟨10, 100, 500, 0⟩, ⟨10, 101, 500, 0⟩, ⟨11, 102, 500, 0⟩] 0
        ⟨10, 100, 500, 0⟩) := by
  have hrow : ([⟨10, 100, 500, 0⟩, ⟨10, 101, 500, 0⟩,
      ⟨11, 102, 500, 0⟩] : List MuonRow).get? 0 = some ⟨10, 100, 500, 0⟩ := rfl
  have hall := sameMFT_grouping
    [⟨10, 100, 500, 0⟩, ⟨10, 101, 500, 0⟩, ⟨11, 102, 500, 0⟩] 0
    ⟨10, 100, 500, 0⟩ hrow
  refine ⟨hall.1, (hall.2.2.1 2 ⟨11, 102, 500, 0⟩ rfl rfl (by decide)).1⟩

/-- Claim C9: in both cross-reference tables, the index list emitted for
a row never contains the row's own index. -/
theorem no_self_reference (muons : List MuonRow) (i : ℕ) (l : List ℕ) :
    ((associateAmbiguousMuon muons).get? i = some l → i ∉ l) ∧
    ((associateSameMFT muons).get? i = some l → i ∉ l) := by
  constructor
  · intro h
    cases hget : muons.get? i with
    | none =>
      rw [associateAmbiguousMuon, List.get?_map, enumFrom_get? muons 0 i, hget] at h
      simp at h
    | some m =>
      rw [associateAmbiguousMuon_get? muons i m hget] at h
      cases h
      intro hmem
      obtain ⟨m2, _, _, hne⟩ := mem_ambListFor.mp hmem
      exact hne rfl
  · intro h
    cases hget : muons.get? i with
    | none =>
      rw [associateSameMFT, List.get?_map, enumFrom_get? muons 0 i, hget] at h
      simp at h
    | some m =>
      rw [associateSameMFT_get? muons i m hget] at h
      cases h
      intro hmem
      obtain ⟨_, m2, _, _, hne, _⟩ := mem_sameMFTListFor.mp hmem
      exact hne rfl

/-- Witness for claim C9: in a two-row table of the same raw track seen
in two collisions, row 0's ambiguous list and same-MFT list do not
contain 0. -/
theorem no_self_reference_witness :
    (0 : ℕ) ∉ ambListFor [⟨10, 100, 500, 0⟩, ⟨11, 100, 500, 0⟩] 0
      ⟨10, 100, 500, 0⟩ ∧
    (0 : ℕ) ∉ sameMFTListFor [⟨10, 100, 500, 0⟩, ⟨11, 100, 500, 0⟩] 0
      ⟨10, 100, 500, 0⟩ := by
  have hamb := (no_self_reference [⟨10, 100, 500, 0⟩, ⟨11, 100, 500, 0⟩] 0
    (ambListFor [⟨10, 100, 500, 0⟩, ⟨11, 100, 500, 0⟩] 0 ⟨10, 100, 500, 0⟩)).1
  have hmft := (no_self_reference [⟨10, 100, 500, 0⟩, ⟨11, 100, 500, 0⟩] 0
    (sameMFTListFor [⟨10, 100, 500, 0⟩, ⟨11, 100, 500, 0⟩] 0 ⟨10, 100, 500, 0⟩)).2
  exact ⟨hamb (associateAmbiguousMuon_get? _ 0 _ rfl),
    hmft (associateSameMFT_get? _ 0 _ rfl)⟩

end SkimmerPrimaryMuon
